import Mathlib

/-!
Verification of the schedule/weather core of the WeatherApp-PIU repository
(src/core/data_processor.py, src/core/schedule_manager.py,
src/core/weather_service.py), shallowly embedded in Lean 4.

Modelling conventions:
- Python `float` values (temperatures, precipitation) are modelled as `Rat`;
  `int` values (weather codes) as `Int`.
- Calendar dates are modelled as integer day numbers with day 0 a Monday, so
  `d % 7` is Python's `date.weekday()` (0 = Monday). Datetimes are integer
  seconds; `date + timedelta(days = k)` is `d + k` on day numbers.
- Python dict fields that may be missing are `Option` fields; `dict.get(k, 0)`
  is `Option.getD 0`.
- Error messages are shortened ASCII tags for the Romanian messages raised by
  the source; no property depends on the message text.
-/

/-- Model of Python `str.lower` restricted to the characters relevant to the
weekday names of the source (ASCII letters plus the Romanian diacritics
Ț, Ș, Â, Ă, Î); all other characters are unchanged. -/
def py_lower_char (c : Char) : Char :=
  if 'A' ≤ c ∧ c ≤ 'Z' then Char.ofNat (c.toNat + 32)
  else if c = 'Ț' then 'ț'
  else if c = 'Ș' then 'ș'
  else if c = 'Â' then 'â'
  else if c = 'Ă' then 'ă'
  else if c = 'Î' then 'î'
  else c

/-- Characters stripped by Python `str.strip()` (the ASCII whitespace set;
exotic Unicode whitespace is not used by the repository). -/
def py_space (c : Char) : Bool :=
  c.toNat = 32 || c.toNat = 9 || c.toNat = 10 || c.toNat = 13 ||
  c.toNat = 11 || c.toNat = 12

/-- Leading-whitespace strip, on the character list of a string. -/
def py_strip_left (l : List Char) : List Char := l.dropWhile py_space

/-- Trailing-whitespace strip, on the character list of a string. -/
def py_strip_right (l : List Char) : List Char :=
  (l.reverse.dropWhile py_space).reverse

/-- Python `str.strip()` on the character list of a string. -/
def py_strip (l : List Char) : List Char := py_strip_right (py_strip_left l)

/-- Python `str.strip()` as a `String` operation. -/
def py_strip_string (s : String) : String := String.mk (py_strip s.data)

/-- Python `str.lower()` as a `String` operation (see `py_lower_char`). -/
def py_lower_string (s : String) : String := String.mk (s.data.map py_lower_char)

/-- `DataProcessor.__init__`: the `day_mapping` dict sending the lowercase
Romanian weekday names to indices 0–6 (Monday = 0); lookup of any other key
is `none` (models `day_normalized not in self.day_mapping`). -/
def day_mapping (s : String) : Option Int :=
  if s = "luni" then some 0
  else if s = "marți" then some 1
  else if s = "miercuri" then some 2
  else if s = "joi" then some 3
  else if s = "vineri" then some 4
  else if s = "sâmbătă" then some 5
  else if s = "duminică" then some 6
  else none

/-- `day_name.lower().strip()` from `DataProcessor._calculate_entry_date`. -/
def normalize_day (day_name : String) : String :=
  py_strip_string (py_lower_string day_name)

/-- `DataProcessor._calculate_entry_date`: normalize the day name, look it up
in `day_mapping`, and return `reference_date + days_ahead` where
`days_ahead = target_weekday - reference_date.weekday()`, bumped by 7 when
negative. Dates are integer day numbers (day 0 a Monday). -/
def calculate_entry_date (day_name : String) (reference_date : Int) : Option Int :=
  match day_mapping (normalize_day day_name) with
  | none => none
  | some target_weekday =>
    let current_weekday := reference_date % 7
    let days_ahead := target_weekday - current_weekday
    let days_ahead := if days_ahead < 0 then days_ahead + 7 else days_ahead
    some (reference_date + days_ahead)

theorem day_mapping_bounds (s : String) (t : Int) (h : day_mapping s = some t) :
    0 ≤ t ∧ t ≤ 6 := by
  unfold day_mapping at h
  split_ifs at h <;> simp_all <;> omega

/-- C1: for every day name recognized by the normalized day mapping and every
reference date, `_calculate_entry_date` returns
`reference_date + ((target - reference_date.weekday()) mod 7)`; when the
target weekday equals the reference date's weekday the result is the
reference date itself, and the result always lies in
`[reference_date, reference_date + 6]`. -/
theorem calculate_entry_date_spec (day_name : String) (reference_date target : Int)
    (h : day_mapping (normalize_day day_name) = some target) :
    calculate_entry_date day_name reference_date =
      some (reference_date + (target - reference_date % 7) % 7) ∧
    (target = reference_date % 7 →
      calculate_entry_date day_name reference_date = some reference_date) ∧
    (∀ d, calculate_entry_date day_name reference_date = some d →
      reference_date ≤ d ∧ d ≤ reference_date + 6) := by
  have hb := day_mapping_bounds _ _ h
  unfold calculate_entry_date
  rw [h]
  simp only
  refine ⟨?_, ?_, ?_⟩
  · congr 1
    omega
  · intro ht
    congr 1
    omega
  · intro d hd
    simp only [Option.some.injEq] at hd
    split at hd <;> omega

/-- Witness for C1: day name " Marți " (uppercase, padded) with reference
date 9 (a Wednesday): resolved date is 9 + (1 - 9 % 7) % 7 = 14. -/
theorem calculate_entry_date_spec_witness :
    calculate_entry_date " Marți " 9 = some (9 + (1 - 9 % 7) % 7) :=
  (calculate_entry_date_spec " Marți " 9 1 (by decide)).1

/-- One record of `weather_data["hourly"]`. The `dt` field is the result of
`datetime.fromisoformat(entry["datetime"])` as seconds since the epoch of the
integer-day model; `none` models a missing `"datetime"` key or an unparseable
value (the `except (ValueError, KeyError)` path). The remaining fields model
the dict entries read with `dict.get(key, 0)` (so `none` is a missing key). -/
structure HourlySample where
  dt : Option Int := none
  temperature : Option Rat := none
  precipitation_probability : Option Rat := none
  precipitation : Option Rat := none
  weather_code : Option Int := none
deriving DecidableEq

/-- `rain_codes = [61, 63, 65, 80, 81, 82]` from
`DataProcessor.detect_rain_conditions`. -/
def rain_codes : List Int := [61, 63, 65, 80, 81, 82]

/-- `DataProcessor.detect_rain_conditions`: a falsy (`None`) sample is
`(False, "none")`; otherwise the sample is rainy when its weather code is a
rain code, or its precipitation amount is positive, or its precipitation
probability exceeds 30, with severity "heavy"/"moderate"/"light" decided by
the amount/code thresholds in that order. -/
def detect_rain_conditions (weather_info : Option HourlySample) : Bool × String :=
  match weather_info with
  | none => (false, "none")
  | some w =>
    let precip_prob := w.precipitation_probability.getD 0
    let precip_amount := w.precipitation.getD 0
    let weather_code := w.weather_code.getD 0
    if weather_code ∈ rain_codes ∨ 0 < precip_amount ∨ 30 < precip_prob then
      if 5 < precip_amount ∨ weather_code ∈ [65, 82] then (true, "heavy")
      else if 1 < precip_amount ∨ weather_code ∈ [63, 81] then (true, "moderate")
      else (true, "light")
    else (false, "none")

theorem detect_rain_conditions_some_eq (w : HourlySample) :
    detect_rain_conditions (some w) =
      (if w.weather_code.getD 0 ∈ rain_codes ∨ 0 < w.precipitation.getD 0 ∨
          30 < w.precipitation_probability.getD 0 then
        if 5 < w.precipitation.getD 0 ∨ w.weather_code.getD 0 ∈ [65, 82] then
          ((true, "heavy") : Bool × String)
        else if 1 < w.precipitation.getD 0 ∨ w.weather_code.getD 0 ∈ [63, 81] then
          (true, "moderate")
        else (true, "light")
      else (false, "none")) := rfl

theorem detect_rain_conditions_fst (w : HourlySample) :
    (detect_rain_conditions (some w)).1 =
      decide (w.weather_code.getD 0 ∈ rain_codes ∨ 0 < w.precipitation.getD 0 ∨
        30 < w.precipitation_probability.getD 0) := by
  rw [detect_rain_conditions_some_eq]
  split_ifs with h1 h2 h3 <;> simp [h1]

/-- C2: `detect_rain_conditions` reports not-rainy exactly when the weather
code is not a rain code, the precipitation amount is ≤ 0 and the probability
is ≤ 30; when rainy the severity is decided by the heavy test first, then the
moderate test, else "light"; and the concrete sample with amount 6.2 and
weather code 0 is classified heavy (the heavy check takes precedence). -/
theorem detect_rain_conditions_spec (w : HourlySample) :
    ((detect_rain_conditions (some w)).1 = false ↔
      (w.weather_code.getD 0 ∉ rain_codes ∧ w.precipitation.getD 0 ≤ 0 ∧
        w.precipitation_probability.getD 0 ≤ 30)) ∧
    ((detect_rain_conditions (some w)).1 = true →
      (detect_rain_conditions (some w)).2 =
        (if 5 < w.precipitation.getD 0 ∨ w.weather_code.getD 0 ∈ [65, 82] then "heavy"
         else if 1 < w.precipitation.getD 0 ∨ w.weather_code.getD 0 ∈ [63, 81] then "moderate"
         else "light")) ∧
    detect_rain_conditions
        (some { precipitation := some 6.2, weather_code := some 0 }) = (true, "heavy") := by
  refine ⟨?_, ?_, ?_⟩
  · rw [detect_rain_conditions_fst]
    simp [not_or, not_lt]
  · intro htrue
    rw [detect_rain_conditions_fst] at htrue
    simp only [decide_eq_true_eq] at htrue
    rw [detect_rain_conditions_some_eq, if_pos htrue]
    split_ifs <;> rfl
  · rw [detect_rain_conditions_some_eq]
    norm_num [rain_codes]

/-- Witness for C2 at a concrete sample: weather code 63 with zero
precipitation is rainy with severity "moderate". -/
theorem detect_rain_conditions_spec_witness :
    (detect_rain_conditions (some { weather_code := some 63 })).2 = "moderate" := by
  have h := (detect_rain_conditions_spec { weather_code := some 63 }).2.1 (by decide)
  simpa using h

/-- C8: `detect_rain_conditions` is total and deterministic (it is a function
in the model): a `None` input yields `(False, "none")`, the severity is always
one of "none"/"light"/"moderate"/"heavy", and the rainy flag is `True` exactly
when the severity is not "none". -/
theorem detect_rain_conditions_total (w : Option HourlySample) :
    detect_rain_conditions none = (false, "none") ∧
    (detect_rain_conditions w).2 ∈ ["none", "light", "moderate", "heavy"] ∧
    ((detect_rain_conditions w).1 = true ↔ (detect_rain_conditions w).2 ≠ "none") := by
  refine ⟨rfl, ?_, ?_⟩ <;>
    cases w with
    | none => simp [detect_rain_conditions]
    | some w => rw [detect_rain_conditions_some_eq]; split_ifs <;> simp

/-- Greedy 1–2 digit number at the head of a character list, returning the
value and the rest; models the regex fragments `%H`/`%M` of
`datetime.strptime` (which prefer two digits and never backtrack into a
successful colon match for these inputs). -/
def parse2 : List Char → Option (Nat × List Char)
  | [] => none
  | [c] => if c.isDigit then some (c.toNat - 48, []) else none
  | c1 :: c2 :: rest =>
    if c1.isDigit then
      if c2.isDigit then some (10 * (c1.toNat - 48) + (c2.toNat - 48), rest)
      else some (c1.toNat - 48, c2 :: rest)
    else none

/-- `datetime.strptime(s, "%H:%M")`, returning minutes since midnight: one or
two digits of hour (0–23), a colon, one or two digits of minute (0–59), and
nothing left over (`unconverted data remains` is a parse failure). -/
def parseHM (l : List Char) : Option Nat :=
  match parse2 l with
  | none => none
  | some (h, rest) =>
    if h ≤ 23 then
      match rest with
      | ':' :: rest2 =>
        match parse2 rest2 with
        | some (m, mrest) => if mrest = [] ∧ m ≤ 59 then some (60 * h + m) else none
        | none => none
      | _ => none
    else none


/-- `min_time_diff` / `closest_weather` loop of
`DataProcessor._find_weather_for_entry`: fold over the hourly samples keeping
the closest parseable sample and its absolute time delta; a `none` accumulator
models `closest_weather = None` with `min_time_diff = inf`, so the comparison
`time_diff < min_time_diff` is vacuously true there. -/
def scan_hourly (target : Int) : List HourlySample → Option (HourlySample × Int) →
    Option (HourlySample × Int)
  | [], acc => acc
  | h :: rest, acc =>
    match h.dt with
    | none => scan_hourly target rest acc
    | some t =>
      if decide (|t - target| ≤ 1800) &&
          acc.all (fun p => decide (|t - target| < p.2)) then
        scan_hourly target rest (some (h, |t - target|))
      else scan_hourly target rest acc

/-- `DataProcessor._find_weather_for_entry`: `hourly = none` models a falsy
`weather_data` or a missing `"hourly"` key; the start token is the text before
the first `-` of the time range, stripped, parsed as HH:MM; the target
datetime is `entry_date` at that time of day, in seconds. -/
def find_weather_for_entry (entry_date : Int) (time_range : String)
    (hourly : Option (List HourlySample)) : Option HourlySample :=
  match hourly with
  | none => none
  | some hs =>
    if '-' ∈ time_range.data then
      match parseHM (py_strip (time_range.data.takeWhile (fun c => c ≠ '-'))) with
      | none => none
      | some mins =>
        (scan_hourly (entry_date * 86400 + (mins : Int) * 60) hs none).map Prod.fst
    else none

/-- The scan accumulator is sound: it holds a sample together with its true
absolute delta, and that delta is within the 1800-second window. -/
def acc_ok (target : Int) (acc : Option (HourlySample × Int)) : Prop :=
  ∀ s d, acc = some (s, d) → (∃ t, s.dt = some t ∧ d = |t - target|) ∧ d ≤ 1800

theorem scan_hourly_ok (target : Int) :
    ∀ (hs : List HourlySample) (acc : Option (HourlySample × Int)),
      acc_ok target acc → acc_ok target (scan_hourly target hs acc)
  | [], _, h => h
  | h :: rest, acc, hok => by
    simp only [scan_hourly]
    split
    · exact scan_hourly_ok target rest acc hok
    · rename_i t hdt
      split
      · rename_i hupd
        simp only [Bool.and_eq_true, decide_eq_true_eq] at hupd
        refine scan_hourly_ok target rest _ ?_
        intro s d hsd
        simp only [Option.some.injEq, Prod.mk.injEq] at hsd
        exact ⟨⟨t, hsd.1 ▸ hdt, hsd.2.symm⟩, hsd.2 ▸ hupd.1⟩
      · exact scan_hourly_ok target rest acc hok

theorem scan_hourly_min (target : Int) :
    ∀ (hs : List HourlySample) (acc : Option (HourlySample × Int)) (s : HourlySample) (d : Int),
      acc_ok target acc → scan_hourly target hs acc = some (s, d) →
      (∀ s0 d0, acc = some (s0, d0) → d ≤ d0) ∧
      (∀ h ∈ hs, ∀ t, h.dt = some t → d ≤ |t - target|)
  | [], acc, s, d, _, hres => by
    simp only [scan_hourly] at hres
    refine ⟨fun s0 d0 h0 => ?_, by simp⟩
    rw [h0] at hres
    simp only [Option.some.injEq, Prod.mk.injEq] at hres
    omega
  | h :: rest, acc, s, d, hok, hres => by
    simp only [scan_hourly] at hres
    split at hres
    · rename_i hdt
      obtain ⟨ha, hl⟩ := scan_hourly_min target rest acc s d hok hres
      refine ⟨ha, fun h2 hmem t ht => ?_⟩
      rcases List.mem_cons.mp hmem with hh | hh
      · rw [hh] at ht; rw [ht] at hdt; cases hdt
      · exact hl h2 hh t ht
    · rename_i t hdt
      split at hres
      · rename_i hupd
        simp only [Bool.and_eq_true, decide_eq_true_eq] at hupd
        have hok2 : acc_ok target (some (h, |t - target|)) := by
          intro s2 d2 h2
          simp only [Option.some.injEq, Prod.mk.injEq] at h2
          exact ⟨⟨t, h2.1 ▸ hdt, h2.2.symm⟩, h2.2 ▸ hupd.1⟩
        obtain ⟨ha, hl⟩ := scan_hourly_min target rest _ s d hok2 hres
        have hd_le : d ≤ |t - target| := ha h (|t - target|) rfl
        refine ⟨fun s0 d0 h0 => ?_, fun h2 hmem t2 ht2 => ?_⟩
        · have := hupd.2
          rw [h0] at this
          simp only [Option.all_some, decide_eq_true_eq] at this
          omega
        · rcases List.mem_cons.mp hmem with hh | hh
          · rw [hh] at ht2; rw [ht2] at hdt
            cases hdt
            exact hd_le
          · exact hl h2 hh t2 ht2
      · rename_i hupd
        obtain ⟨ha, hl⟩ := scan_hourly_min target rest acc s d hok hres
        have hd1800 : d ≤ 1800 :=
          ((scan_hourly_ok target rest acc hok) s d hres).2
        refine ⟨ha, fun h2 hmem t2 ht2 => ?_⟩
        rcases List.mem_cons.mp hmem with hh | hh
        · rw [hh] at ht2; rw [ht2] at hdt
          cases hdt
          by_cases hle : |t - target| ≤ 1800
          · simp only [Bool.and_eq_true, decide_eq_true_eq, not_and, hle,
              forall_const] at hupd
            cases hacc : acc with
            | none => rw [hacc] at hupd; simp at hupd
            | some p =>
              rw [hacc] at hupd
              simp only [Option.all_some, decide_eq_true_eq, not_lt] at hupd
              have := ha p.1 p.2 (by rw [hacc])
              omega
          · omega
        · exact hl h2 hh t2 ht2

theorem scan_hourly_all_far (target : Int) :
    ∀ hs : List HourlySample,
      (∀ h ∈ hs, ∀ t, h.dt = some t → 1800 < |t - target|) →
      scan_hourly target hs none = none
  | [], _ => rfl
  | h :: rest, hfar => by
    simp only [scan_hourly]
    split
    · exact scan_hourly_all_far target rest
        (fun h2 hm => hfar h2 (List.mem_cons_of_mem _ hm))
    · rename_i t hdt
      have hgt : ¬ |t - target| ≤ 1800 := by
        have := hfar h (List.mem_cons_self _ _) t hdt
        omega
      rw [if_neg (by simp [hgt])]
      exact scan_hourly_all_far target rest
        (fun h2 hm => hfar h2 (List.mem_cons_of_mem _ hm))

/-- C3: when the time range contains a dash and its start token parses as
HH:MM, any sample returned by `_find_weather_for_entry` has an absolute delta
from the target datetime of at most 1800 seconds, minimal among all parseable
hourly samples; and when every parseable sample is farther than 1800 seconds
the result is `none`. -/
theorem find_weather_for_entry_spec (entry_date : Int) (time_range : String)
    (hs : List HourlySample) (mins : Nat)
    (hdash : '-' ∈ time_range.data)
    (hparse : parseHM (py_strip (time_range.data.takeWhile (fun c => c ≠ '-'))) = some mins) :
    (∀ s, find_weather_for_entry entry_date time_range (some hs) = some s →
      ∃ t, s.dt = some t ∧ |t - (entry_date * 86400 + (mins : Int) * 60)| ≤ 1800 ∧
        ∀ h ∈ hs, ∀ t2, h.dt = some t2 →
          |t - (entry_date * 86400 + (mins : Int) * 60)| ≤
            |t2 - (entry_date * 86400 + (mins : Int) * 60)|) ∧
    ((∀ h ∈ hs, ∀ t2, h.dt = some t2 →
        1800 < |t2 - (entry_date * 86400 + (mins : Int) * 60)|) →
      find_weather_for_entry entry_date time_range (some hs) = none) := by
  have hunf : find_weather_for_entry entry_date time_range (some hs) =
      (scan_hourly (entry_date * 86400 + (mins : Int) * 60) hs none).map Prod.fst := by
    simp only [find_weather_for_entry, if_pos hdash, hparse]
  constructor
  · intro s hres
    rw [hunf] at hres
    cases hscan : scan_hourly (entry_date * 86400 + (mins : Int) * 60) hs none with
    | none => rw [hscan] at hres; cases hres
    | some p =>
      rw [hscan] at hres
      simp only [Option.map_some', Option.some.injEq] at hres
      obtain ⟨⟨t, ht, hd⟩, h1800⟩ :=
        (scan_hourly_ok _ hs none (by intro s d h; cases h)) p.1 p.2 (by rw [hscan])
      obtain ⟨_, hmin⟩ :=
        scan_hourly_min _ hs none p.1 p.2 (by intro s d h; cases h) hscan
      subst hres
      exact ⟨t, ht, by omega, fun h2 hm t2 ht2 => by have := hmin h2 hm t2 ht2; omega⟩
  · intro hfar
    rw [hunf, scan_hourly_all_far _ hs hfar]
    rfl

/-- Witness for C3: time range "08:00-10:00" on day 0 targets second 28800;
the only sample sits at second 31000, which is 2200 > 1800 seconds away, so
no sample is matched. -/
theorem find_weather_for_entry_spec_witness :
    find_weather_for_entry 0 "08:00-10:00" (some [{ dt := some 31000 }]) = none := by
  refine (find_weather_for_entry_spec 0 "08:00-10:00" [{ dt := some 31000 }] 480
    (by decide) (by decide)).2 ?_
  intro h hm t2 ht2
  simp only [List.mem_singleton] at hm
  subst hm
  simp only [Option.some.injEq] at ht2
  subst ht2
  decide

/-- A validated schedule entry (the dict produced by
`ScheduleManager._validate_entry`): day, time range, subject and location
strings. -/
structure ScheduleEntry where
  day : String
  time : String
  subject : String
  location : String
deriving DecidableEq

/-- An entry enriched by `DataProcessor.merge_schedule_with_weather`: the
original fields plus the added `"weather"` and `"date"` keys. -/
structure EnrichedEntry where
  day : String
  time : String
  subject : String
  location : String
  weather : Option HourlySample
  date : Option Int
deriving DecidableEq

/-- `DataProcessor.merge_schedule_with_weather`: for each entry, copy it,
resolve its date from the day name, and attach the matched hourly sample; on
an unresolvable day name attach `weather = None`, `date = None`. `today` is
the `datetime.now().date()` reference passed explicitly; `hourly` is the
forecast set as in `find_weather_for_entry`. -/
def merge_schedule_with_weather (schedule_entries : List ScheduleEntry)
    (hourly : Option (List HourlySample)) (today : Int) : List EnrichedEntry :=
  schedule_entries.map fun entry =>
    match calculate_entry_date entry.day today with
    | some entry_date =>
      { day := entry.day, time := entry.time, subject := entry.subject,
        location := entry.location,
        weather := find_weather_for_entry entry_date entry.time hourly,
        date := some entry_date }
    | none =>
      { day := entry.day, time := entry.time, subject := entry.subject,
        location := entry.location, weather := none, date := none }

/-- C5: an entry whose day name does not resolve under the normalized day
mapping is not dropped and raises nothing: it appears at its position in the
output with `date = None` and `weather = None` (the merge always returns a
full-length partial result). -/
theorem merge_unknown_day_kept (schedule_entries : List ScheduleEntry)
    (hourly : Option (List HourlySample)) (today : Int) (i : Nat) (e : ScheduleEntry)
    (hget : schedule_entries.get? i = some e)
    (hday : day_mapping (normalize_day e.day) = none) :
    (merge_schedule_with_weather schedule_entries hourly today).length =
      schedule_entries.length ∧
    (merge_schedule_with_weather schedule_entries hourly today).get? i =
      some { day := e.day, time := e.time, subject := e.subject,
             location := e.location, weather := none, date := none } := by
  refine ⟨List.length_map _ _, ?_⟩
  rw [merge_schedule_with_weather, List.get?_map, hget]
  simp only [Option.map_some', Option.some.injEq]
  rw [calculate_entry_date, hday]

/-- Witness for C5: the day name "Lunedi" is not a Romanian weekday, so the
entry survives the merge with no date and no weather attached. -/
theorem merge_unknown_day_kept_witness :
    (merge_schedule_with_weather
        [{ day := "Lunedi", time := "08:00-10:00", subject := "PIU", location := "C309" }]
        (some [{ dt := some 28800 }]) 0).get? 0 =
      some { day := "Lunedi", time := "08:00-10:00", subject := "PIU",
             location := "C309", weather := none, date := none } :=
  (merge_unknown_day_kept
    [{ day := "Lunedi", time := "08:00-10:00", subject := "PIU", location := "C309" }]
    (some [{ dt := some 28800 }]) 0 0
    { day := "Lunedi", time := "08:00-10:00", subject := "PIU", location := "C309" }
    (by decide) (by decide)).2

/-- C10: the merge is a frame-preserving per-entry map: the output has the
same length and order as the input, and each output element keeps its input
entry's day, time, subject and location unchanged, differing only in the
added weather and date fields (inputs are copied, never mutated, which is
inherent to the pure model). -/
theorem merge_frame (schedule_entries : List ScheduleEntry)
    (hourly : Option (List HourlySample)) (today : Int) :
    (merge_schedule_with_weather schedule_entries hourly today).length =
      schedule_entries.length ∧
    ∀ i e, schedule_entries.get? i = some e →
      ∃ o, (merge_schedule_with_weather schedule_entries hourly today).get? i = some o ∧
        o.day = e.day ∧ o.time = e.time ∧ o.subject = e.subject ∧
        o.location = e.location := by
  refine ⟨List.length_map _ _, fun i e hget => ?_⟩
  rw [merge_schedule_with_weather, List.get?_map, hget]
  cases hcd : calculate_entry_date e.day today <;>
    simp only [Option.map_some', hcd] <;>
    exact ⟨_, rfl, rfl, rfl, rfl, rfl⟩

/-- Witness for C10: a recognized day keeps its fields through the merge. -/
theorem merge_frame_witness :
    ∃ o, (merge_schedule_with_weather
        [{ day := "Luni", time := "08:00-10:00", subject := "PIU", location := "C309" }]
        none 0).get? 0 = some o ∧
      o.day = "Luni" ∧ o.time = "08:00-10:00" ∧ o.subject = "PIU" ∧
      o.location = "C309" :=
  (merge_frame
    [{ day := "Luni", time := "08:00-10:00", subject := "PIU", location := "C309" }]
    none 0).2 0
    { day := "Luni", time := "08:00-10:00", subject := "PIU", location := "C309" }
    (by decide)

/-- The result dict of `DataProcessor.calculate_statistics`. -/
structure Statistics where
  avg_temperature : Option Rat
  max_temperature : Option Rat
  min_temperature : Option Rat
  rainy_periods : Nat
  total_precipitation : Rat
deriving DecidableEq

/-- One iteration of the `for entry in entries` loop of
`DataProcessor.calculate_statistics`, acting on the state
(temperatures, rainy_count, total_precip): entries with a falsy `"weather"`
value are skipped; a non-null temperature is appended; rainy samples are
counted; the precipitation amount (default 0) is accumulated. -/
def stats_step (st : List Rat × Nat × Rat) (entry : EnrichedEntry) :
    List Rat × Nat × Rat :=
  match entry.weather with
  | none => st
  | some w =>
    ((match w.temperature with
      | some t => st.1 ++ [t]
      | none => st.1),
     (if (detect_rain_conditions (some w)).1 then st.2.1 + 1 else st.2.1),
     st.2.2 + w.precipitation.getD 0)

/-- Python `max(l)` on a nonempty list (`min` dually). -/
def py_max : List Rat → Option Rat
  | [] => none
  | t :: ts => some (ts.foldl max t)

def py_min : List Rat → Option Rat
  | [] => none
  | t :: ts => some (ts.foldl min t)

/-- `DataProcessor.calculate_statistics`: early return of all-`None`/0 on an
empty entry list, otherwise a fold of `stats_step` followed by
`sum/len` (or `None` on an empty temperature list), `max`, `min`, the rainy
count and the precipitation total. -/
def calculate_statistics (entries : List EnrichedEntry) : Statistics :=
  if entries.isEmpty then
    { avg_temperature := none, max_temperature := none, min_temperature := none,
      rainy_periods := 0, total_precipitation := 0 }
  else
    let st := entries.foldl stats_step ([], 0, 0)
    { avg_temperature :=
        if st.1.isEmpty then none else some (st.1.sum / (st.1.length : Rat)),
      max_temperature := py_max st.1,
      min_temperature := py_min st.1,
      rainy_periods := st.2.1,
      total_precipitation := st.2.2 }

/-- The temperatures collected by the statistics loop: one value per entry
with a matched sample whose temperature is non-null. -/
def entry_temps (entries : List EnrichedEntry) : List Rat :=
  entries.filterMap fun e => e.weather.bind fun w => w.temperature

theorem stats_foldl_eq (entries : List EnrichedEntry) :
    ∀ st : List Rat × Nat × Rat,
      entries.foldl stats_step st =
        (st.1 ++ entry_temps entries,
         st.2.1 + (entries.filter fun e => (detect_rain_conditions e.weather).1).length,
         st.2.2 + (entries.filterMap fun e =>
           e.weather.map fun w => w.precipitation.getD 0).sum) := by
  induction entries with
  | nil => intro st; simp [entry_temps]
  | cons e rest ih =>
    intro st
    simp only [List.foldl_cons, ih, entry_temps, List.filterMap_cons, List.filter_cons]
    cases hw : e.weather with
    | none =>
      simp [stats_step, hw, detect_rain_conditions]
    | some w =>
      simp only [stats_step, hw, Option.some_bind, Option.map_some', List.sum_cons]
      cases ht : w.temperature with
      | none =>
        cases hr : (detect_rain_conditions (some w)).1 <;>
          simp [hr, Prod.ext_iff] <;> ring_nf <;> simp [add_comm, add_assoc, add_left_comm]
      | some tv =>
        cases hr : (detect_rain_conditions (some w)).1 <;>
          simp [hr, Prod.ext_iff] <;> ring_nf <;>
          simp [add_comm, add_assoc, add_left_comm]

theorem py_max_mem_le : ∀ (ts : List Rat) (t : Rat),
    ts.foldl max t ∈ t :: ts ∧ ∀ x ∈ t :: ts, x ≤ ts.foldl max t
  | [], t => by simp
  | a :: ts, t => by
    obtain ⟨hmem, hle⟩ := py_max_mem_le ts (max t a)
    have hbase : max t a ≤ List.foldl max (max t a) ts :=
      hle _ (List.mem_cons_self _ _)
    simp only [List.foldl_cons]
    constructor
    · rcases List.mem_cons.mp hmem with h | h
      · rw [h]
        rcases max_choice t a with hc | hc <;> rw [hc] <;> simp
      · simp [h]
    · intro x hx
      rcases List.mem_cons.mp hx with h | h
      · rw [h]
        exact le_trans (le_max_left t a) hbase
      · rcases List.mem_cons.mp h with h2 | h2
        · rw [h2]
          exact le_trans (le_max_right t a) hbase
        · exact hle x (List.mem_cons_of_mem _ h2)

theorem py_min_mem_le : ∀ (ts : List Rat) (t : Rat),
    ts.foldl min t ∈ t :: ts ∧ ∀ x ∈ t :: ts, ts.foldl min t ≤ x
  | [], t => by simp
  | a :: ts, t => by
    obtain ⟨hmem, hle⟩ := py_min_mem_le ts (min t a)
    have hbase : List.foldl min (min t a) ts ≤ min t a :=
      hle _ (List.mem_cons_self _ _)
    simp only [List.foldl_cons]
    constructor
    · rcases List.mem_cons.mp hmem with h | h
      · rw [h]
        rcases min_choice t a with hc | hc <;> rw [hc] <;> simp
      · simp [h]
    · intro x hx
      rcases List.mem_cons.mp hx with h | h
      · rw [h]
        exact le_trans hbase (min_le_left t a)
      · rcases List.mem_cons.mp h with h2 | h2
        · rw [h2]
          exact le_trans hbase (min_le_right t a)
        · exact hle x (List.mem_cons_of_mem _ h2)

/-- C4: the statistics are computed over exactly the entries with a matched
sample and non-null temperature: average is sum/length of those temperatures
(`None` when there are none, including the empty list and all-null sets); max
and min are `None` exactly when there are none and otherwise an attained
bound; rainy_periods counts the entries whose matched sample is rainy under
`detect_rain_conditions`; total_precipitation sums the precipitation of all
matched entries (unmatched contribute 0, the empty list gives 0). -/
theorem calculate_statistics_spec (entries : List EnrichedEntry) :
    ((calculate_statistics entries).avg_temperature =
      if (entry_temps entries).isEmpty then none
      else some ((entry_temps entries).sum / ((entry_temps entries).length : Rat))) ∧
    ((calculate_statistics entries).max_temperature = py_max (entry_temps entries)) ∧
    ((calculate_statistics entries).min_temperature = py_min (entry_temps entries)) ∧
    ((calculate_statistics entries).max_temperature = none ↔ entry_temps entries = []) ∧
    (∀ m, (calculate_statistics entries).max_temperature = some m →
      m ∈ entry_temps entries ∧ ∀ x ∈ entry_temps entries, x ≤ m) ∧
    (∀ m, (calculate_statistics entries).min_temperature = some m →
      m ∈ entry_temps entries ∧ ∀ x ∈ entry_temps entries, m ≤ x) ∧
    ((calculate_statistics entries).rainy_periods =
      (entries.filter fun e => (detect_rain_conditions e.weather).1).length) ∧
    ((calculate_statistics entries).total_precipitation =
      (entries.filterMap fun e => e.weather.map fun w => w.precipitation.getD 0).sum) := by
  have hmain : calculate_statistics entries =
      { avg_temperature :=
          if (entry_temps entries).isEmpty then none
          else some ((entry_temps entries).sum / ((entry_temps entries).length : Rat)),
        max_temperature := py_max (entry_temps entries),
        min_temperature := py_min (entry_temps entries),
        rainy_periods :=
          (entries.filter fun e => (detect_rain_conditions e.weather).1).length,
        total_precipitation :=
          (entries.filterMap fun e =>
            e.weather.map fun w => w.precipitation.getD 0).sum } := by
    unfold calculate_statistics
    split
    · rename_i hemp
      rw [List.isEmpty_iff] at hemp
      subst hemp
      simp [entry_temps, py_max, py_min]
    · rw [stats_foldl_eq entries ([], 0, 0)]
      simp
  rw [hmain]
  refine ⟨rfl, rfl, rfl, ?_, ?_, ?_⟩
  · cases hts : entry_temps entries <;> simp [py_max]
  · intro m hm
    cases hts : entry_temps entries with
    | nil => rw [hts] at hm; cases hm
    | cons t ts =>
      rw [hts] at hm
      simp only [py_max, Option.some.injEq] at hm
      exact hm ▸ py_max_mem_le ts t
  · exact ⟨fun m hm => by
      cases hts : entry_temps entries with
      | nil => rw [hts] at hm; cases hm
      | cons t ts =>
        rw [hts] at hm
        simp only [py_min, Option.some.injEq] at hm
        exact hm ▸ py_min_mem_le ts t, rfl, rfl⟩

/-- Witness for C4: on the empty entry list the total precipitation is 0 and
the average temperature is `None`. -/
theorem calculate_statistics_spec_witness :
    (calculate_statistics []).total_precipitation = 0 ∧
    (calculate_statistics []).avg_temperature = none := by
  have h := calculate_statistics_spec []
  refine ⟨by simpa using h.2.2.2.2.2.2.2, by simpa [entry_temps] using h.1⟩

/-- An input record for `ScheduleManager._validate_entry`: a dict whose
day/time/subject/location keys may be absent (`none`); `some ""` is a present
but falsy (empty) value, which the source treats like an absent one. -/
structure RawEntry where
  day : Option String := none
  time : Option String := none
  subject : Option String := none
  location : Option String := none
deriving DecidableEq

/-- Python `str.split("-")`: the maximal dash-free segments of a string (list
of characters); a string with no dash yields one segment, a string with k
dashes yields k+1 segments. -/
def splitDash : List Char → List (List Char)
  | [] => [[]]
  | c :: rest =>
    if c = '-' then [] :: splitDash rest
    else
      match splitDash rest with
      | [] => [[c]]
      | seg :: segs => (c :: seg) :: segs

/-- `ScheduleManager._validate_entry`: error when day, time or subject is
absent or empty; error when the time field has no dash; error (an unpacking
`ValueError`) when splitting on `-` yields more than two tokens; error when a
token does not parse as HH:MM; otherwise the entry with all four fields
stripped. Error strings are ASCII tags for the source's messages. -/
def validate_entry (entry : RawEntry) : Except String ScheduleEntry :=
  if entry.day.getD "" = "" then .error "missing or empty field: day"
  else if entry.time.getD "" = "" then .error "missing or empty field: time"
  else if entry.subject.getD "" = "" then .error "missing or empty field: subject"
  else if '-' ∈ (entry.time.getD "").data then
    match splitDash (entry.time.getD "").data with
    | [start_time, end_time] =>
      match parseHM (py_strip start_time), parseHM (py_strip end_time) with
      | some _, some _ =>
        .ok { day := py_strip_string (entry.day.getD ""),
              time := py_strip_string (entry.time.getD ""),
              subject := py_strip_string (entry.subject.getD ""),
              location := py_strip_string (entry.location.getD "") }
      | _, _ => .error "invalid time format"
    | _ => .error "too many values to unpack"
  else .error "invalid time format: use HH:MM-HH:MM"

theorem splitDash_ne_nil : ∀ l : List Char, splitDash l ≠ []
  | [] => by simp [splitDash]
  | c :: rest => by
    simp only [splitDash]
    split
    · simp
    · split <;> simp


theorem splitDash_eq_single : ∀ (l b : List Char), splitDash l = [b] →
    l = b ∧ '-' ∉ l
  | [], b => by
    intro h
    simp only [splitDash, List.cons.injEq, and_true] at h
    exact ⟨h, by simp⟩
  | c :: rest, b => by
    simp only [splitDash]
    split
    · intro h
      simp only [List.cons.injEq] at h
      exact absurd h.2 (splitDash_ne_nil rest)
    · rename_i hc
      split
      · rename_i hbad
        exact absurd hbad (splitDash_ne_nil rest)
      · rename_i seg segs hseg
        intro h
        simp only [List.cons.injEq] at h
        obtain ⟨hb, hsegs⟩ := h
        subst hsegs
        obtain ⟨hrb, hnd⟩ := splitDash_eq_single rest seg hseg
        subst hrb
        subst hb
        refine ⟨rfl, ?_⟩
        simp only [List.mem_cons, not_or]
        exact ⟨fun h2 => hc h2.symm, hnd⟩

theorem splitDash_eq_pair : ∀ (l a b : List Char), splitDash l = [a, b] →
    l = a ++ '-' :: b ∧ '-' ∉ a ∧ '-' ∉ b
  | [], a, b => by simp [splitDash]
  | c :: rest, a, b => by
    simp only [splitDash]
    split
    · rename_i hc
      subst hc
      intro h
      simp only [List.cons.injEq] at h
      obtain ⟨ha, hrest⟩ := h
      obtain ⟨hrb, hnd⟩ := splitDash_eq_single rest b hrest
      subst hrb
      simp [← ha, hnd]
    · rename_i hc
      split
      · rename_i hbad
        exact absurd hbad (splitDash_ne_nil rest)
      · rename_i seg segs hseg
        intro h
        simp only [List.cons.injEq] at h
        obtain ⟨ha, hsegs⟩ := h
        subst hsegs
        obtain ⟨hrl, hna, hnb⟩ := splitDash_eq_pair rest seg b hseg
        subst hrl
        refine ⟨by simp [← ha], ?_, hnb⟩
        rw [← ha]
        simp only [List.mem_cons, not_or]
        exact ⟨fun hcontra => hc hcontra.symm, hna⟩

theorem splitDash_no_dash : ∀ l : List Char, '-' ∉ l → splitDash l = [l]
  | [], _ => rfl
  | c :: rest, h => by
    simp only [List.mem_cons, not_or] at h
    simp only [splitDash]
    rw [if_neg (fun hcontra => h.1 hcontra.symm), splitDash_no_dash rest h.2]

theorem splitDash_append (a b : List Char) (ha : '-' ∉ a) :
    splitDash (a ++ '-' :: b) = a :: splitDash b := by
  induction a with
  | nil => simp [splitDash]
  | cons c a2 ih =>
    simp only [List.mem_cons, not_or] at ha
    rw [List.cons_append]
    simp only [splitDash]
    rw [if_neg (fun hcontra => ha.1 hcontra.symm), ih ha.2]

/-- C6: `_validate_entry` errors when day, time or subject is absent/empty;
a successful validation implies the time field split on `-` into exactly two
HH:MM-parseable tokens and returns all four fields whitespace-stripped;
conversely, with nonempty day and subject, a time of exactly two parseable
tokens validates; and a reversed range "10:00-08:00" is accepted (start < end
is not enforced). -/
theorem validate_entry_spec (e : RawEntry) :
    ((e.day.getD "" = "" ∨ e.time.getD "" = "" ∨ e.subject.getD "" = "") →
      ∃ m, validate_entry e = .error m) ∧
    (∀ s, validate_entry e = .ok s →
      s = { day := py_strip_string (e.day.getD ""),
            time := py_strip_string (e.time.getD ""),
            subject := py_strip_string (e.subject.getD ""),
            location := py_strip_string (e.location.getD "") } ∧
      ∃ a b, splitDash (e.time.getD "").data = [a, b] ∧
        (parseHM (py_strip a)).isSome ∧ (parseHM (py_strip b)).isSome) ∧
    ((e.day.getD "" ≠ "" ∧ e.subject.getD "" ≠ "") →
      ∀ a b, splitDash (e.time.getD "").data = [a, b] →
        (parseHM (py_strip a)).isSome → (parseHM (py_strip b)).isSome →
        ∃ s, validate_entry e = .ok s) ∧
    validate_entry ⟨some "Luni", some "10:00-08:00", some "Mate", none⟩ =
      .ok ⟨"Luni", "10:00-08:00", "Mate", ""⟩ := by
  refine ⟨?_, ?_, ?_, by rfl⟩
  · intro h
    unfold validate_entry
    split_ifs with h1 h2 h3 h4 <;>
      first
        | exact ⟨_, rfl⟩
        | (rcases h with h | h | h
           exacts [absurd h h1, absurd h h2, absurd h h3])
  · intro s hs
    unfold validate_entry at hs
    split_ifs at hs with h1 h2 h3 h4
    split at hs
    · rename_i a b hsplit
      split at hs
      · rename_i x y hx hy
        simp only [Except.ok.injEq] at hs
        exact ⟨hs.symm, a, b, hsplit, by rw [hx]; rfl, by rw [hy]; rfl⟩
      · exact absurd hs (by simp)
    · exact absurd hs (by simp)
  · rintro ⟨hday, hsubj⟩ a b hsplit hpa hpb
    have hpair := splitDash_eq_pair _ a b hsplit
    have htime_ne : e.time.getD "" ≠ "" := by
      intro h0
      rw [h0] at hsplit
      simp [splitDash] at hsplit
    have hdash : '-' ∈ (e.time.getD "").data := by
      rw [hpair.1]
      simp
    obtain ⟨x, hx⟩ := Option.isSome_iff_exists.mp hpa
    obtain ⟨y, hy⟩ := Option.isSome_iff_exists.mp hpb
    unfold validate_entry
    rw [if_neg hday, if_neg htime_ne, if_neg hsubj, if_pos hdash]
    simp only [hsplit, hx, hy]
    exact ⟨_, rfl⟩

/-- Witness for C6: a padded, well-formed record validates to its stripped
fields. -/
theorem validate_entry_spec_witness :
    ∃ s, validate_entry ⟨some " Luni ", some "08:00 - 10:00", some "PIU", none⟩ =
      .ok s :=
  (validate_entry_spec ⟨some " Luni ", some "08:00 - 10:00", some "PIU", none⟩).2.2.1
    ⟨by decide, by decide⟩
    "08:00 ".data " 10:00".data (by decide) (by decide) (by decide)

theorem py_dropWhile_idem (l : List Char) :
    (l.dropWhile py_space).dropWhile py_space = l.dropWhile py_space := by
  induction l with
  | nil => rfl
  | cons a x ih =>
    by_cases hp : py_space a
    · simp [List.dropWhile_cons, hp, ih]
    · simp [List.dropWhile_cons, hp]

theorem py_dropWhile_append_mid (m : Char) (hm : py_space m = false) :
    ∀ xs ys : List Char,
      (xs ++ m :: ys).dropWhile py_space = xs.dropWhile py_space ++ m :: ys := by
  intro xs ys
  induction xs with
  | nil => simp [List.dropWhile_cons, hm]
  | cons a x ih =>
    by_cases hp : py_space a
    · simpa [List.dropWhile_cons, hp] using ih
    · simp [List.dropWhile_cons, hp]

theorem py_strip_right_cons (c : Char) (hc : py_space c = false) (t : List Char) :
    py_strip_right (c :: t) = c :: py_strip_right t := by
  unfold py_strip_right
  rw [show (c :: t).reverse = t.reverse ++ c :: ([] : List Char) by simp,
    py_dropWhile_append_mid c hc]
  simp

theorem py_strip_right_append_mid (m : Char) (hm : py_space m = false)
    (xs ys : List Char) :
    py_strip_right (xs ++ m :: ys) = xs ++ m :: py_strip_right ys := by
  unfold py_strip_right
  rw [show (xs ++ m :: ys).reverse = ys.reverse ++ m :: xs.reverse by simp,
    py_dropWhile_append_mid m hm]
  simp

theorem py_strip_right_idem (l : List Char) :
    py_strip_right (py_strip_right l) = py_strip_right l := by
  unfold py_strip_right
  rw [List.reverse_reverse, py_dropWhile_idem]

theorem py_dropWhile_head_false {l t : List Char} {c : Char}
    (h : l.dropWhile py_space = c :: t) : py_space c = false := by
  induction l with
  | nil => cases h
  | cons a x ih =>
    by_cases hp : py_space a
    · rw [List.dropWhile_cons, if_pos hp] at h
      exact ih h
    · rw [List.dropWhile_cons, if_neg hp] at h
      cases h
      simpa using hp

theorem py_strip_left_of_strip (l : List Char) :
    (py_strip l).dropWhile py_space = py_strip l := by
  unfold py_strip py_strip_left
  cases hL : l.dropWhile py_space with
  | nil => simp [py_strip_right]
  | cons c t =>
    rw [py_strip_right_cons c (py_dropWhile_head_false hL) t,
      List.dropWhile_cons, if_neg (by simp [py_dropWhile_head_false hL])]

theorem py_strip_idem (l : List Char) : py_strip (py_strip l) = py_strip l := by
  have h1 : py_strip (py_strip l) = py_strip_right (py_strip l) := by
    conv_lhs => rw [py_strip]
    rw [show py_strip_left (py_strip l) = (py_strip l).dropWhile py_space from rfl,
      py_strip_left_of_strip]
  have h2 : py_strip_right (py_strip l) = py_strip l := by
    conv_lhs => rw [show py_strip l = py_strip_right (py_strip_left l) from rfl]
    rw [py_strip_right_idem]
    exact rfl
  rw [h1, h2]

theorem py_strip_append_dash (a b : List Char) :
    py_strip (a ++ '-' :: b) =
      a.dropWhile py_space ++ '-' :: py_strip_right b := by
  unfold py_strip py_strip_left
  rw [py_dropWhile_append_mid '-' (by decide),
    py_strip_right_append_mid '-' (by decide)]

theorem py_strip_dropWhile (a : List Char) :
    py_strip (a.dropWhile py_space) = py_strip a := by
  unfold py_strip py_strip_left
  rw [py_dropWhile_idem]

theorem py_space_all_of_dropWhile_nil {b : List Char}
    (h : b.dropWhile py_space = []) : ∀ x ∈ b, py_space x :=
  List.dropWhile_eq_nil_iff.mp h

theorem py_strip_left_right_comm (b : List Char) :
    (py_strip_right b).dropWhile py_space =
      py_strip_right (b.dropWhile py_space) := by
  cases hL : b.dropWhile py_space with
  | nil =>
    have hall := py_space_all_of_dropWhile_nil hL
    have hrev : b.reverse.dropWhile py_space = [] :=
      List.dropWhile_eq_nil_iff.mpr (fun x hx => hall x (List.mem_reverse.mp hx))
    unfold py_strip_right
    rw [hrev]
    rfl
  | cons c t =>
    have hc := py_dropWhile_head_false hL
    have hb : b = b.takeWhile py_space ++ c :: t := by
      conv_lhs => rw [← List.takeWhile_append_dropWhile py_space b]
      rw [hL]
    have hwall : ∀ x ∈ b.takeWhile py_space, py_space x :=
      fun x hx => List.mem_takeWhile_imp hx
    conv_lhs => rw [hb]
    rw [py_strip_right_append_mid c hc, py_dropWhile_append_mid c hc,
      List.dropWhile_eq_nil_iff.mpr hwall, py_strip_right_cons c hc]
    rfl

theorem py_strip_strip_right (b : List Char) :
    py_strip (py_strip_right b) = py_strip b := by
  unfold py_strip py_strip_left
  rw [py_strip_left_right_comm, py_strip_right_idem]

theorem py_strip_string_idem (u : String) :
    py_strip_string (py_strip_string u) = py_strip_string u := by
  show String.mk (py_strip (py_strip u.data)) = String.mk (py_strip u.data)
  rw [py_strip_idem]

theorem validate_entry_ok_shape (e : RawEntry) (s : ScheduleEntry)
    (hs : validate_entry e = .ok s) :
    s = ⟨py_strip_string (e.day.getD ""), py_strip_string (e.time.getD ""),
         py_strip_string (e.subject.getD ""), py_strip_string (e.location.getD "")⟩ ∧
    ∃ a b, splitDash (e.time.getD "").data = [a, b] ∧
      (∃ x, parseHM (py_strip a) = some x) ∧ ∃ y, parseHM (py_strip b) = some y := by
  unfold validate_entry at hs
  split_ifs at hs with h1 h2 h3 h4
  split at hs
  · rename_i a b hsplit
    split at hs
    · rename_i x y hx hy
      simp only [Except.ok.injEq] at hs
      exact ⟨hs.symm, a, b, hsplit, ⟨x, hx⟩, ⟨y, hy⟩⟩
    · exact absurd hs (by simp)
  · exact absurd hs (by simp)

theorem validate_entry_ok_of_tokens (e : RawEntry)
    (hday : e.day.getD "" ≠ "") (hsubj : e.subject.getD "" ≠ "")
    (a b : List Char) (hsplit : splitDash (e.time.getD "").data = [a, b])
    (x y : Nat) (hx : parseHM (py_strip a) = some x)
    (hy : parseHM (py_strip b) = some y) :
    validate_entry e =
      .ok ⟨py_strip_string (e.day.getD ""), py_strip_string (e.time.getD ""),
           py_strip_string (e.subject.getD ""),
           py_strip_string (e.location.getD "")⟩ := by
  have hpair := splitDash_eq_pair _ a b hsplit
  have htime_ne : e.time.getD "" ≠ "" := by
    intro h0
    rw [h0] at hsplit
    simp [splitDash] at hsplit
  have hdash : '-' ∈ (e.time.getD "").data := by
    rw [hpair.1]
    simp
  unfold validate_entry
  rw [if_neg hday, if_neg htime_ne, if_neg hsubj, if_pos hdash]
  simp only [hsplit, hx, hy]

/-- The dict `{"day": s.day, "time": s.time, "subject": s.subject,
"location": s.location}` of a validated entry, as re-read by the JSON loader
(all four keys present; `json.dump`/`json.load` round-trips string dicts
exactly, so the library round trip is modelled as the identity on records). -/
def to_raw_entry (s : ScheduleEntry) : RawEntry :=
  ⟨some s.day, some s.time, some s.subject, some s.location⟩

theorem revalidate_ok (r : RawEntry) (s : ScheduleEntry)
    (hok : validate_entry r = .ok s) (hday : s.day ≠ "") (hsubj : s.subject ≠ "") :
    validate_entry (to_raw_entry s) = .ok s := by
  obtain ⟨hshape, a, b, hsplit, ⟨x, hx⟩, ⟨y, hy⟩⟩ := validate_entry_ok_shape r s hok
  subst hshape
  obtain ⟨hteq, hna, hnb⟩ := splitDash_eq_pair _ a b hsplit
  have hnaL : '-' ∉ a.dropWhile py_space :=
    fun hmem => hna (List.Sublist.mem hmem (List.dropWhile_sublist py_space))
  have hnbR : '-' ∉ py_strip_right b := by
    intro hmem
    unfold py_strip_right at hmem
    rw [List.mem_reverse] at hmem
    exact hnb (List.mem_reverse.mp
      (List.Sublist.mem hmem (List.dropWhile_sublist py_space)))
  have hsplit2 : splitDash (py_strip_string (r.time.getD "")).data =
      [a.dropWhile py_space, py_strip_right b] := by
    show splitDash (py_strip ((r.time.getD "").data)) = _
    rw [hteq, py_strip_append_dash, splitDash_append _ _ hnaL,
      splitDash_no_dash _ hnbR]
  have hx2 : parseHM (py_strip (a.dropWhile py_space)) = some x := by
    rw [py_strip_dropWhile]
    exact hx
  have hy2 : parseHM (py_strip (py_strip_right b)) = some y := by
    rw [py_strip_strip_right]
    exact hy
  have hmain := validate_entry_ok_of_tokens
    (to_raw_entry ⟨py_strip_string (r.day.getD ""), py_strip_string (r.time.getD ""),
      py_strip_string (r.subject.getD ""), py_strip_string (r.location.getD "")⟩)
    hday hsubj (a.dropWhile py_space) (py_strip_right b) hsplit2 x y hx2 hy2
  refine hmain.trans (congrArg Except.ok ?_)
  show (⟨py_strip_string (py_strip_string (r.day.getD "")),
        py_strip_string (py_strip_string (r.time.getD "")),
        py_strip_string (py_strip_string (r.subject.getD "")),
        py_strip_string (py_strip_string (r.location.getD ""))⟩ : ScheduleEntry) = _
  simp only [py_strip_string_idem]

/-- The per-entry validation loop shared by `ScheduleManager.load_from_json`
and `load_from_csv`: validate each record in order, aborting with the first
error (the caught exception). -/
def validate_all : List RawEntry → Except String (List ScheduleEntry)
  | [] => .ok []
  | e :: rest =>
    match validate_entry e with
    | .error m => .error m
    | .ok v =>
      match validate_all rest with
      | .error m => .error m
      | .ok vs => .ok (v :: vs)

/-- `ScheduleManager.export_to_json` followed by `json.load`: the schedule
list serialized and re-read; the JSON library round trip is the identity on
the record dicts. -/
def export_to_json (sched : List ScheduleEntry) : List RawEntry :=
  sched.map to_raw_entry

/-- `ScheduleManager.load_from_json` on already-parsed JSON data: validate
every record of the `"schedule"` list. -/
def load_from_json (entries : List RawEntry) : Except String (List ScheduleEntry) :=
  validate_all entries

/-- One CSV row of the `day,time,subject,location` table; the csv
writer/reader round trip (with quoting) is the identity on cell strings. -/
structure CsvRow where
  day : String
  time : String
  subject : String
  location : String
deriving DecidableEq

/-- `ScheduleManager.export_to_csv`: one row per entry with the four field
columns. -/
def export_to_csv (sched : List ScheduleEntry) : List CsvRow :=
  sched.map fun s => ⟨s.day, s.time, s.subject, s.location⟩

/-- The dict built from one CSV row by `ScheduleManager.load_from_csv`
(each cell stripped, a missing location becoming `""`). -/
def csv_row_to_raw (row : CsvRow) : RawEntry :=
  ⟨some (py_strip_string row.day), some (py_strip_string row.time),
   some (py_strip_string row.subject), some (py_strip_string row.location)⟩

/-- `ScheduleManager.load_from_csv`: build a dict from every row and validate
it. -/
def load_from_csv (rows : List CsvRow) : Except String (List ScheduleEntry) :=
  validate_all (rows.map csv_row_to_raw)

theorem validate_all_map_ok (sched : List ScheduleEntry)
    (h : ∀ s ∈ sched, validate_entry (to_raw_entry s) = .ok s) :
    validate_all (sched.map to_raw_entry) = .ok sched := by
  induction sched with
  | nil => rfl
  | cons s rest ih =>
    simp only [List.map_cons, validate_all, h s (List.mem_cons_self _ _),
      ih (fun e he => h e (List.mem_cons_of_mem _ he))]

/-- Counterexample to C7 as stated: the raw record with day `" "` (whitespace
only, truthy in Python) passes `_validate_entry` and is stored with
`day = ""`; re-loading the exported schedule then fails the `not entry["day"]`
check, so the round trip returns an error instead of the original entries. -/
theorem schedule_round_trip_cex :
    validate_entry ⟨some " ", some "08:00-10:00", some "Mate", none⟩ =
      .ok ⟨"", "08:00-10:00", "Mate", ""⟩ ∧
    load_from_json (export_to_json [⟨"", "08:00-10:00", "Mate", ""⟩]) =
      .error "missing or empty field: day" := ⟨rfl, rfl⟩

/-- C7 (amended): for every validated schedule whose entries also have
nonempty (post-strip) day and subject fields, exporting to JSON or CSV and
re-loading with the corresponding loader returns exactly the same entries in
the same order. (The amendment excludes entries validated from whitespace-only
day or subject fields, which strip to `""` and fail re-validation.) -/
theorem schedule_round_trip (sched : List ScheduleEntry)
    (h : ∀ s ∈ sched, (∃ r, validate_entry r = .ok s) ∧ s.day ≠ "" ∧ s.subject ≠ "") :
    load_from_json (export_to_json sched) = .ok sched ∧
    load_from_csv (export_to_csv sched) = .ok sched := by
  have hok : ∀ s ∈ sched, validate_entry (to_raw_entry s) = .ok s := by
    intro s hs
    obtain ⟨⟨r, hr⟩, hd, hsub⟩ := h s hs
    exact revalidate_ok r s hr hd hsub
  constructor
  · exact validate_all_map_ok sched hok
  · unfold load_from_csv export_to_csv
    rw [List.map_map]
    have hcomp : ∀ s ∈ sched,
        (csv_row_to_raw ∘ fun s => CsvRow.mk s.day s.time s.subject s.location) s =
          to_raw_entry s := by
      intro s hs
      obtain ⟨⟨r, hr⟩, _, _⟩ := h s hs
      obtain ⟨hshape, _⟩ := validate_entry_ok_shape r s hr
      subst hshape
      simp only [Function.comp_apply, csv_row_to_raw, to_raw_entry,
        py_strip_string_idem]
    rw [List.map_congr_left hcomp]
    exact validate_all_map_ok sched hok

/-- Witness for the amended C7: a one-entry schedule survives the JSON round
trip unchanged. -/
theorem schedule_round_trip_witness :
    load_from_json (export_to_json [⟨"Luni", "08:00-10:00", "Mate", "C309"⟩]) =
      .ok [⟨"Luni", "08:00-10:00", "Mate", "C309"⟩] :=
  (schedule_round_trip [⟨"Luni", "08:00-10:00", "Mate", "C309"⟩] (by
    intro s hs
    simp only [List.mem_singleton] at hs
    subst hs
    exact ⟨⟨⟨some "Luni", some "08:00-10:00", some "Mate", some "C309"⟩, by rfl⟩,
      by decide, by decide⟩)).1

/-- `WeatherService.convert_temperature`: identity when the unit strings are
equal; Celsius→Fahrenheit and Fahrenheit→Celsius by the linear formulas
(units compared lowercased); any other pair returns the input unchanged. -/
def convert_temperature (temp : Rat) (from_unit to_unit : String) : Rat :=
  if from_unit = to_unit then temp
  else if py_lower_string from_unit = "celsius" ∧
      py_lower_string to_unit = "fahrenheit" then
    temp * 9 / 5 + 32
  else if py_lower_string from_unit = "fahrenheit" ∧
      py_lower_string to_unit = "celsius" then
    (temp - 32) * 5 / 9
  else temp

/-- C9: `convert_temperature` is the identity on equal units, applies
`t*9/5 + 32` for celsius→fahrenheit, `(t - 32)*5/9` for fahrenheit→celsius,
and is the identity on every other unit pair. -/
theorem convert_temperature_spec (t : Rat) (u v : String) :
    convert_temperature t u u = t ∧
    (py_lower_string u = "celsius" → py_lower_string v = "fahrenheit" →
      convert_temperature t u v = t * 9 / 5 + 32) ∧
    (py_lower_string u = "fahrenheit" → py_lower_string v = "celsius" →
      convert_temperature t u v = (t - 32) * 5 / 9) ∧
    (¬(py_lower_string u = "celsius" ∧ py_lower_string v = "fahrenheit") →
     ¬(py_lower_string u = "fahrenheit" ∧ py_lower_string v = "celsius") →
      convert_temperature t u v = t) := by
  refine ⟨by simp [convert_temperature], ?_, ?_, ?_⟩
  · intro hu hv
    have huv : u ≠ v := fun he => by
      rw [he, hv] at hu
      exact absurd hu (by decide)
    unfold convert_temperature
    rw [if_neg huv, if_pos ⟨hu, hv⟩]
  · intro hu hv
    have huv : u ≠ v := fun he => by
      rw [he, hv] at hu
      exact absurd hu (by decide)
    unfold convert_temperature
    rw [if_neg huv, if_neg (fun hc => by
        rw [hu] at hc
        exact absurd hc.1 (by decide)),
      if_pos ⟨hu, hv⟩]
  · intro h1 h2
    unfold convert_temperature
    split_ifs <;> rfl

/-- Witness for C9: converting 25 from "Celsius" to "Fahrenheit" yields 77. -/
theorem convert_temperature_spec_witness :
    convert_temperature 25 "Celsius" "Fahrenheit" = 25 * 9 / 5 + 32 :=
  (convert_temperature_spec 25 "Celsius" "Fahrenheit").2.1 (by decide) (by decide)
